import Mathlib

/-!
Verification of the agri-rag document service (`src/app.py`).

The development shallowly embeds the Flask application's pure logic:

* `sha256hex` — SHA-256 (FIPS 180-4), modelling Python's `hashlib.sha256`;
  the round constants are derived from the fractional parts of the cube
  roots (resp. square roots) of the first 64 (resp. 8) primes, exactly as
  the standard defines them.
* `compute_file_hash` — the streaming hash loop of `app.py`.
* `extract_text_from_pdf` — the per-page extraction loop with its
  try/except handling.
* `upload_file`, `list_processed`, `chat` — the three HTTP handlers as
  state-transition functions over an explicit `ServerState` (manifest,
  vector store, temp folder, processed folder).

External library calls (`hashlib`, `PyPDF2` page objects, `werkzeug`
`secure_filename`, the embedding pipeline, `json.load`) enter as explicit
inputs or function parameters; everything that is code of `app.py` is
translated line by line.
-/

/-! ## SHA-256 (model of `hashlib.sha256`) -/

/-- Truncate to a 32-bit word. -/
def w32 (n : Nat) : Nat := n % 4294967296

/-- Rotate a 32-bit word right by `n` bits. -/
def rotr (n x : Nat) : Nat := w32 ((x >>> n) ||| (x <<< (32 - n)))

def bigSigma0 (x : Nat) : Nat := (rotr 2 x) ^^^ (rotr 13 x) ^^^ (rotr 22 x)
def bigSigma1 (x : Nat) : Nat := (rotr 6 x) ^^^ (rotr 11 x) ^^^ (rotr 25 x)
def smallSigma0 (x : Nat) : Nat := (rotr 7 x) ^^^ (rotr 18 x) ^^^ (x >>> 3)
def smallSigma1 (x : Nat) : Nat := (rotr 17 x) ^^^ (rotr 19 x) ^^^ (x >>> 10)
def chFn (x y z : Nat) : Nat := (x &&& y) ^^^ ((x ^^^ 4294967295) &&& z)
def majFn (x y z : Nat) : Nat := (x &&& y) ^^^ (x &&& z) ^^^ (y &&& z)

/-- The first 64 primes, used to derive the SHA-256 constants. -/
def sha256Primes : List Nat :=
  [2, 3, 5, 7, 11, 13, 17, 19, 23, 29, 31, 37, 41, 43, 47, 53,
   59, 61, 67, 71, 73, 79, 83, 89, 97, 101, 103, 107, 109, 113, 127, 131,
   137, 139, 149, 151, 157, 163, 167, 173, 179, 181, 191, 193, 197, 199, 211, 223,
   227, 229, 233, 239, 241, 251, 257, 263, 269, 271, 277, 281, 283, 293, 307, 311]

/-- Bisection step for the integer cube root. -/
def icbrtGo (n : Nat) : Nat → Nat → Nat → Nat
  | _, lo, 0 => lo
  | hi, lo, fuel + 1 =>
    if hi ≤ lo + 1 then lo
    else
      let mid := (lo + hi) / 2
      if mid * mid * mid ≤ n then icbrtGo n hi mid fuel else icbrtGo n mid lo fuel

/-- Integer cube root: the largest `r` with `r ^ 3 ≤ n`. -/
def icbrt (n : Nat) : Nat := icbrtGo n (n + 1) 0 200

/-- Bisection step for the integer square root. -/
def isqrtGo (n : Nat) : Nat → Nat → Nat → Nat
  | _, lo, 0 => lo
  | hi, lo, fuel + 1 =>
    if hi ≤ lo + 1 then lo
    else
      let mid := (lo + hi) / 2
      if mid * mid ≤ n then isqrtGo n hi mid fuel else isqrtGo n mid lo fuel

/-- Integer square root: the largest `r` with `r ^ 2 ≤ n`. -/
def isqrt (n : Nat) : Nat := isqrtGo n (n + 1) 0 200

/-- SHA-256 round constants: first 32 bits of the fractional parts of the
cube roots of the first 64 primes. -/
def sha256K : List Nat := sha256Primes.map (fun p => w32 (icbrt (p * 2 ^ 96)))

/-- A SHA-256 state: eight 32-bit words. -/
structure Sha8 where
  a : Nat
  b : Nat
  c : Nat
  d : Nat
  e : Nat
  f : Nat
  g : Nat
  h : Nat
deriving Repr, DecidableEq

/-- SHA-256 initial hash value: first 32 bits of the fractional parts of
the square roots of the first 8 primes. -/
def sha256H0 : Sha8 :=
  ⟨w32 (isqrt (2 * 2 ^ 64)), w32 (isqrt (3 * 2 ^ 64)),
   w32 (isqrt (5 * 2 ^ 64)), w32 (isqrt (7 * 2 ^ 64)),
   w32 (isqrt (11 * 2 ^ 64)), w32 (isqrt (13 * 2 ^ 64)),
   w32 (isqrt (17 * 2 ^ 64)), w32 (isqrt (19 * 2 ^ 64))⟩

/-- Big-endian bytes (most significant first) of `n`, `k` bytes wide. -/
def bytesBE (k n : Nat) : List Nat :=
  (List.range k).map (fun i => (n >>> (8 * (k - 1 - i))) % 256)

/-- SHA-256 padding: append `0x80`, zeros to 56 mod 64, then the 64-bit
big-endian bit length. -/
def sha256pad (msg : List Nat) : List Nat :=
  msg ++ [128] ++ List.replicate ((119 - msg.length % 64) % 64) 0 ++ bytesBE 8 (msg.length * 8)

/-- Group bytes into big-endian 32-bit words. -/
def toWordsBE : List Nat → List Nat
  | a :: b :: c :: d :: rest => (((a * 256 + b) * 256 + c) * 256 + d) :: toWordsBE rest
  | _ => []

/-- Split a padded message into 16-word blocks.  The fuel argument bounds
the number of iterations; each iteration consumes 64 bytes, so fuel equal
to the byte count always suffices. -/
def toBlocksF : Nat → List Nat → List (List Nat)
  | 0, _ => []
  | _, [] => []
  | fuel + 1, b :: rest => toWordsBE ((b :: rest).take 64) :: toBlocksF fuel ((b :: rest).drop 64)

def toBlocks (l : List Nat) : List (List Nat) := toBlocksF l.length l

/-- Extend the 16-word message block to the 64-word schedule. -/
def extendW : List Nat → Nat → List Nat
  | ws, 0 => ws
  | ws, k + 1 =>
    let t := ws.length
    let nw := w32 (smallSigma1 (ws.getD (t - 2) 0) + ws.getD (t - 7) 0 +
                   smallSigma0 (ws.getD (t - 15) 0) + ws.getD (t - 16) 0)
    extendW (ws ++ [nw]) k

/-- One SHA-256 round. -/
def sha256Round (W : List Nat) (t : Nat) (s : Sha8) : Sha8 :=
  let T1 := w32 (s.h + bigSigma1 s.e + chFn s.e s.f s.g + sha256K.getD t 0 + W.getD t 0)
  let T2 := w32 (bigSigma0 s.a + majFn s.a s.b s.c)
  ⟨w32 (T1 + T2), s.a, s.b, s.c, w32 (s.d + T1), s.e, s.f, s.g⟩

/-- Compress one 16-word block into the running hash. -/
def sha256Compress (st : Sha8) (block : List Nat) : Sha8 :=
  let W := extendW block 48
  let r := (List.range 64).foldl (fun s t => sha256Round W t s) st
  ⟨w32 (st.a + r.a), w32 (st.b + r.b), w32 (st.c + r.c), w32 (st.d + r.d),
   w32 (st.e + r.e), w32 (st.f + r.f), w32 (st.g + r.g), w32 (st.h + r.h)⟩

/-- The SHA-256 digest of a byte sequence, as eight 32-bit words. -/
def sha256digest (msg : List Nat) : Sha8 :=
  (toBlocks (sha256pad msg)).foldl sha256Compress sha256H0

/-- Lowercase hex rendering of a 32-bit word, 8 characters. -/
def hexW (n : Nat) : List Char :=
  (List.range 8).map (fun i => Nat.digitChar ((n >>> (4 * (7 - i))) % 16))

/-- `hashlib`'s `hexdigest()`: the 64-character lowercase hex digest. -/
def sha256hex (msg : List Nat) : String :=
  let d := sha256digest msg
  String.mk (hexW d.a ++ hexW d.b ++ hexW d.c ++ hexW d.d ++
             hexW d.e ++ hexW d.f ++ hexW d.g ++ hexW d.h)

/-! ## `compute_file_hash` (app.py lines 34–42)

The loop reads `chunk_size` bytes at a time and feeds each chunk to the
incremental hash object.  Per `hashlib`'s contract, sequential `update`
calls hash the concatenation of their arguments, so the hash object's
state is modelled as the byte sequence accumulated so far.  `f.read 0`
returns the empty bytes object, so a zero `chunk_size` breaks the loop at
once. -/

def hashLoopF (chunkSize : Nat) : Nat → List Nat → List Nat → List Nat
  | 0, acc, _ => acc
  | _ + 1, acc, [] => acc
  | fuel + 1, acc, b :: rest =>
    if chunkSize = 0 then acc
    else hashLoopF chunkSize fuel (acc ++ (b :: rest).take chunkSize) ((b :: rest).drop chunkSize)

/-- The bytes fed to the hash object by the read loop: each iteration
reads at most `chunkSize` bytes and `update`s with them; fuel equal to
the byte count always suffices since each pass consumes at least one
byte. -/
def hashLoop (chunkSize : Nat) (content : List Nat) : List Nat :=
  hashLoopF chunkSize content.length [] content

/-- `compute_file_hash(path, chunk_size=8192)`: `content` is the byte
sequence of the file at `path`. -/
def compute_file_hash (content : List Nat) (chunkSize : Nat := 8192) : String :=
  sha256hex (hashLoop chunkSize content)

/-! ## Python string helpers -/

/-- The characters `str.strip()` removes. -/
def isPySpace (c : Char) : Bool :=
  c == ' ' || c == '\t' || c == '\n' || c == '\r' || c == '\x0b' || c == '\x0c'

/-- Python `str.strip()`: drop leading and trailing whitespace. -/
def pyStrip (s : String) : String :=
  String.mk (((s.data.dropWhile isPySpace).reverse.dropWhile isPySpace).reverse)

/-- `os.path.splitext` on a bare file name (no path separator): split at
the last dot, unless every character before that dot is itself a dot
(so purely leading dots never start an extension). -/
def pySplitextCore (l : List Char) : List Char × List Char :=
  match l.reverse.findIdx? (· == '.') with
  | none => (l, [])
  | some k =>
    let dotIdx := l.length - 1 - k
    if (l.take dotIdx).all (· == '.') then (l, [])
    else (l.take dotIdx, l.drop dotIdx)

def pySplitext (s : String) : String × String :=
  let p := pySplitextCore s.data
  (String.mk p.1, String.mk p.2)

/-! ## `extract_text_from_pdf` (app.py lines 44–56)

A page of the opened PDF either yields `extract_text()`'s result — a
string or Python `None` — or raises.  `PdfReader` itself may raise, in
which case the page loop never runs and `text_parts` stays empty. -/

inductive PageRead where
  /-- `page.extract_text()` returned this value (`none` models Python `None`). -/
  | ok (txt : Option String)
  /-- `page.extract_text()` raised; the inner `except` substitutes `""`. -/
  | err
deriving Repr, DecidableEq

/-- A PDF as seen by `PdfReader`: `none` when construction raises,
otherwise the list of pages. -/
def PdfFile := Option (List PageRead)

/-- The text one loop iteration appends for a page: `txt or ""`. -/
def pageText : PageRead → String
  | .ok none => ""
  | .ok (some s) => s
  | .err => ""

/-- The `text_parts` list built by the page loop. -/
def collectPages : List PageRead → List String
  | [] => []
  | p :: ps =>
    (match p with
     | .err => ""
     | .ok none => ""
     | .ok (some s) => s) :: collectPages ps

def extract_text_from_pdf (pdf : PdfFile) : String :=
  let text_parts :=
    match pdf with
    | none => []
    | some pages => collectPages pages
  pyStrip (String.intercalate ("\n\n") text_parts)

/-! ## Server state and the `/upload` handler (app.py lines 76–165)

The state carries the file system regions the handler touches (the
`data` temp folder and the `processed_data` folder, each as the set of
existing paths), the parsed manifest (`processed_index.json`), and the
vector store (its entries' metadata texts, in insertion order — the two
branches of the `index is None` test perform the identical
`add_embeddings` + `save` calls, so both are one append here). -/

structure ManifestRecord where
  filename : String
  hash : String
  processed_at : String
  path : String
deriving Repr, DecidableEq

structure ServerState where
  tempFiles : List String
  processedFiles : List String
  manifest : List ManifestRecord
  vectorStore : List String
deriving Repr, DecidableEq

/-- Writing a file: creates the path if absent (overwrites otherwise). -/
def fsSave (fs : List String) (p : String) : List String :=
  if p ∈ fs then fs else fs ++ [p]

/-- `os.remove` / the source side of `os.rename`. -/
def fsRemove (fs : List String) (p : String) : List String :=
  fs.filter (· ≠ p)

/-- An incoming multipart request: whether a `file` part is present, the
client-supplied filename, the uploaded bytes, and what `PdfReader` sees
when opening those bytes. -/
structure UploadRequest where
  hasFile : Bool
  filename : String
  content : List Nat
  pdf : PdfFile

inductive UploadResult where
  /-- 400 `{"error": "No file part"}` -/
  | noFilePart
  /-- 400 `{"error": "No selected file"}` -/
  | noSelectedFile
  /-- 200 `{"message": "File already processed earlier. Ready to chat!"}` — no `file` field -/
  | alreadyProcessed
  /-- 500 `{"error": "Failed to extract text from PDF"}` -/
  | extractionFailed
  /-- 200 `{"message": ..., "file": rec}` -/
  | success (rec : ManifestRecord)
deriving Repr, DecidableEq

/-- The `/upload` handler.  `sanitize` stands for werkzeug's
`secure_filename`, `chunkDocs` for the external
`EmbeddingPipeline.chunk_documents` ∘ `embed_chunks` pair (the chunk
texts drive the metadata stored with the vectors), `ts` for the
`strftime("%Y%m%d%H%M%S")` collision suffix and `isoNow` for the
`isoformat() + "Z"` timestamp recorded in the manifest. -/
def upload_file (sanitize : String → String) (chunkDocs : String → List String)
    (req : UploadRequest) (ts isoNow : String) (st : ServerState) :
    UploadResult × ServerState :=
  if ¬ req.hasFile then (.noFilePart, st)
  else if req.filename = "" then (.noSelectedFile, st)
  else
    let filename := sanitize req.filename
    let temp_path := "data/" ++ filename
    let st1 := { st with tempFiles := fsSave st.tempFiles temp_path }
    let file_hash := compute_file_hash req.content
    if st1.manifest.any (fun rec => rec.hash == file_hash) then
      (.alreadyProcessed, { st1 with tempFiles := fsRemove st1.tempFiles temp_path })
    else
      let pdf_text := extract_text_from_pdf req.pdf
      if pdf_text = "" then
        (.extractionFailed, { st1 with tempFiles := fsRemove st1.tempFiles temp_path })
      else
        let chunks := chunkDocs pdf_text
        let st2 := { st1 with vectorStore := st1.vectorStore ++ chunks }
        let destName :=
          if ("processed_data/" ++ filename) ∈ st2.processedFiles then
            let p := pySplitext filename
            p.1 ++ "_" ++ ts ++ p.2
          else filename
        let dest_path := "processed_data/" ++ destName
        let st3 := { st2 with
          tempFiles := fsRemove st2.tempFiles temp_path,
          processedFiles := fsSave st2.processedFiles dest_path }
        let new_rec : ManifestRecord := ⟨destName, file_hash, isoNow, dest_path⟩
        (.success new_rec, { st3 with manifest := st3.manifest ++ [new_rec] })

/-! ## `load_processed_index` (app.py lines 58–63)

`json.load` is external; its outcome (a parsed record list, or `none`
when the file's JSON is unparseable) is the input.  The `try` block
catches every parse failure and returns `[]`. -/

def load_processed_index (parsed : Option (List ManifestRecord)) : List ManifestRecord :=
  match parsed with
  | some index => index
  | none => []

/-! ## `GET /processed` (app.py lines 167–171) -/

/-- The comparator realised by `sorted(key=..., reverse=True)`: `a` may
stay before `b` iff `a`'s key is not below `b`'s.  Python's sort and
`List.mergeSort` are both stable, so they agree. -/
def descByProcessedAt (a b : ManifestRecord) : Bool :=
  decide (b.processed_at ≤ a.processed_at)

def list_processed (st : ServerState) : List ManifestRecord × ServerState :=
  (st.manifest.mergeSort descByProcessedAt, st)

/-! ## `POST /chat` (app.py lines 173–183) -/

inductive ChatEffect where
  /-- `get_rag()`: lazily construct the process-wide `RAGSearch` object. -/
  | initRag
  /-- `rag_instance.search_and_summarize(user_message)`: the retrieval
  pipeline — embed the query, search the index, summarize. -/
  | searchAndSummarize (q : String)
deriving Repr, DecidableEq

inductive ChatResult where
  /-- 400 `{"error": "Message cannot be empty"}` -/
  | emptyMessage
  /-- 200 `{"response": ...}` -/
  | answered (resp : String)
deriving Repr, DecidableEq

/-- The `/chat` handler.  `summarize` stands for the external
`search_and_summarize`; the returned trace records the external calls
made, in order.  A missing `message` key defaults to `""`. -/
def chat (summarize : String → String) (message : String) :
    ChatResult × List ChatEffect :=
  if message = "" then (.emptyMessage, [.initRag])
  else (.answered (summarize message), [.initRag, .searchAndSummarize message])

/-! ## Derived forms used to characterise `upload_file`'s branches -/

/-- The destination file name chosen on the success path (app.py lines
144–150): the sanitized name, or the timestamp-suffixed name when that
path already exists in `processed_data`. -/
def uploadDestName (sanitize : String → String) (req : UploadRequest) (ts : String)
    (st : ServerState) : String :=
  let filename := sanitize req.filename
  if ("processed_data/" ++ filename) ∈ st.processedFiles then
    (pySplitext filename).1 ++ "_" ++ ts ++ (pySplitext filename).2
  else filename

/-- The manifest record appended on the success path (app.py lines 155–160). -/
def uploadRec (sanitize : String → String) (req : UploadRequest) (ts isoNow : String)
    (st : ServerState) : ManifestRecord :=
  ⟨uploadDestName sanitize req ts st, compute_file_hash req.content, isoNow,
   "processed_data/" ++ uploadDestName sanitize req ts st⟩

/-- The manifest invariant: no two records share a hash. -/
def hashUnique (m : List ManifestRecord) : Prop :=
  m.Pairwise (fun a b => a.hash ≠ b.hash)

set_option maxRecDepth 10000

/-- FIPS 180-4 test vector: the SHA-256 digest of the empty message. -/
theorem sha256hex_empty :
    sha256hex [] = "e3b0c44298fc1c149afbf4c8996fb92427ae41e4649b934ca495991b7852b855" := by
  decide

/-- FIPS 180-4 test vector: the SHA-256 digest of `"abc"`. -/
theorem sha256hex_abc :
    sha256hex [97, 98, 99] =
      "ba7816bf8f01cfea414140de5dae2223b00361a396177a9cb410ff61f20015ad" := by
  decide

/-! ## Helper lemmas -/

theorem hashLoopF_eq (cs : Nat) (hcs : 0 < cs) :
    ∀ fuel acc r, r.length ≤ fuel → hashLoopF cs fuel acc r = acc ++ r := by
  intro fuel
  induction fuel with
  | zero =>
    intro acc r hr
    cases r with
    | nil => simp [hashLoopF]
    | cons b rest => simp at hr
  | succ n ih =>
    intro acc r hr
    cases r with
    | nil => simp [hashLoopF]
    | cons b rest =>
      rw [hashLoopF, if_neg (Nat.pos_iff_ne_zero.mp hcs)]
      rw [ih _ _ (by simp [List.length_drop]; simp at hr; omega)]
      simp [List.append_assoc, List.take_append_drop]

/-- The read loop feeds exactly the file's bytes, in order. -/
theorem hashLoop_eq (cs : Nat) (hcs : 0 < cs) (content : List Nat) :
    hashLoop cs content = content := by
  simpa using hashLoopF_eq cs hcs content.length [] content le_rfl

theorem hexW_length (n : Nat) : (hexW n).length = 8 := by
  simp [hexW]

theorem sha256hex_length (m : List Nat) : (sha256hex m).length = 64 := by
  simp [sha256hex, String.length, hexW]

theorem collectPages_eq_map (l : List PageRead) : collectPages l = l.map pageText := by
  induction l with
  | nil => rfl
  | cons p ps ih =>
    cases p with
    | err => simp [collectPages, pageText, ih]
    | ok t => cases t <;> simp [collectPages, pageText, ih]

theorem mem_fsSave (fs : List String) (p q : String) :
    q ∈ fsSave fs p ↔ q ∈ fs ∨ q = p := by
  by_cases h : p ∈ fs
  · simp only [fsSave, if_pos h]
    exact ⟨Or.inl, fun hq => hq.elim id (fun e => e ▸ h)⟩
  · simp [fsSave, h]

theorem not_mem_fsRemove (fs : List String) (p : String) : p ∉ fsRemove fs p := by
  simp [fsRemove]

/-! ## Claim theorems -/

/-- **C7.** `compute_file_hash` is deterministic and chunk-size-independent:
for every file content and every positive chunk size, streaming the file
through the incremental hash in fixed-size chunks yields the same
64-character hexadecimal digest as hashing the whole content at once, so
the recorded hash depends only on the file's bytes. -/
theorem compute_file_hash_chunk_independent (content : List Nat) (chunkSize : Nat)
    (hcs : 0 < chunkSize) :
    compute_file_hash content chunkSize = sha256hex content ∧
    (compute_file_hash content chunkSize).length = 64 := by
  rw [compute_file_hash, hashLoop_eq chunkSize hcs content]
  exact ⟨rfl, sha256hex_length content⟩

/-- Witness for C7 at the default chunk size and a one-byte file. -/
theorem compute_file_hash_chunk_independent_witness :
    0 < 8192 ∧
      (compute_file_hash [0] 8192 = sha256hex [0] ∧
       (compute_file_hash [0] 8192).length = 64) :=
  ⟨by decide, compute_file_hash_chunk_independent [0] 8192 (by decide)⟩

/-- **C3.** `GET /processed` returns exactly the manifest's records (a
permutation, hence the same count), sorted by `processed_at` descending,
and leaves the server state — in particular the manifest — unchanged. -/
theorem list_processed_sorted_desc (st : ServerState) :
    ((list_processed st).1.Perm st.manifest ∧
     (list_processed st).1.length = st.manifest.length) ∧
    (list_processed st).1.Pairwise (fun a b => b.processed_at ≤ a.processed_at) ∧
    (list_processed st).2 = st := by
  refine ⟨⟨List.mergeSort_perm st.manifest descByProcessedAt, ?_⟩, ?_, rfl⟩
  · exact (List.mergeSort_perm st.manifest descByProcessedAt).length_eq
  · have h := @List.sorted_mergeSort ManifestRecord descByProcessedAt
      (fun a b c hab hbc => by
        simp only [descByProcessedAt, decide_eq_true_eq] at *
        exact le_trans hbc hab)
      (fun a b => by
        simp only [descByProcessedAt, Bool.or_eq_true, decide_eq_true_eq]
        exact le_total b.processed_at a.processed_at)
      st.manifest
    exact h.imp (fun {a b} hab => by
      simpa [descByProcessedAt, decide_eq_true_eq] using hab)

/-- **C5.** An empty `/chat` message yields the 400 "Message cannot be
empty" response and the retrieval pipeline (`search_and_summarize`,
i.e. embedding, search, summarization) is never invoked; only the lazy
`get_rag()` state initialization runs. -/
theorem chat_empty_message_rejected (summarize : String → String) (message : String)
    (h : message = "") :
    (chat summarize message).1 = ChatResult.emptyMessage ∧
    ∀ q, ChatEffect.searchAndSummarize q ∉ (chat summarize message).2 := by
  subst h
  simp [chat]

/-- Witness for C5 at the empty message. -/
theorem chat_empty_message_rejected_witness :
    (chat id ("")).1 = ChatResult.emptyMessage ∧
    ∀ q, ChatEffect.searchAndSummarize q ∉ (chat id ("")).2 :=
  chat_empty_message_rejected id ("") rfl

/-- **C9.** `extract_text_from_pdf` is total on every input (it is a
function into `String`); a page whose extraction raises contributes
exactly what an empty-text page contributes — the surrounding pages'
text is still collected — so the result is the `"\n\n"`-joined,
stripped concatenation of the per-page recoverable text, and a raising
`PdfReader` yields the empty string. -/
theorem extract_text_total_and_recovers :
    (∀ pre post, extract_text_from_pdf (some (pre ++ PageRead.err :: post)) =
      extract_text_from_pdf (some (pre ++ PageRead.ok (some ("")) :: post))) ∧
    (∀ pages, extract_text_from_pdf (some pages) =
      pyStrip (String.intercalate ("\n\n") (pages.map pageText))) ∧
    extract_text_from_pdf none = "" := by
  refine ⟨fun pre post => ?_, fun pages => ?_, rfl⟩
  · simp [extract_text_from_pdf, collectPages_eq_map, pageText]
  · simp [extract_text_from_pdf, collectPages_eq_map]

/-- **C10.** An unparseable manifest file loads as the empty list, and the
handlers then behave as if nothing had ever been processed: `/processed`
returns no records, and no upload can be reported as a duplicate. -/
theorem corrupt_manifest_loads_empty :
    load_processed_index none = [] ∧
    (∀ tf pf vs, (list_processed ⟨tf, pf, load_processed_index none, vs⟩).1 = []) ∧
    (∀ sanitize chunkDocs req ts isoNow tf pf vs,
      (upload_file sanitize chunkDocs req ts isoNow
        ⟨tf, pf, load_processed_index none, vs⟩).1 ≠ UploadResult.alreadyProcessed) := by
  refine ⟨rfl, fun tf pf vs => by simp [list_processed, load_processed_index], ?_⟩
  intro sanitize chunkDocs req ts isoNow tf pf vs
  simp only [upload_file, load_processed_index]
  split
  · simp
  · split
    · simp
    · simp only [List.any_nil, Bool.false_eq_true, if_false]
      split <;> simp

/-! ## Branch characterisations of `upload_file` -/

theorem upload_file_dup_eq (sanitize : String → String) (chunkDocs : String → List String)
    (req : UploadRequest) (ts isoNow : String) (st : ServerState)
    (hfile : req.hasFile = true) (hname : req.filename ≠ "")
    (hdup : (st.manifest.any fun r => r.hash == compute_file_hash req.content) = true) :
    upload_file sanitize chunkDocs req ts isoNow st =
      (UploadResult.alreadyProcessed,
       { st with tempFiles :=
           (fsRemove (fsSave st.tempFiles ("data/" ++ sanitize req.filename))
             ("data/" ++ sanitize req.filename)) }) := by
  simp [upload_file, hfile, hname, hdup]

theorem upload_file_emptyText_eq (sanitize : String → String) (chunkDocs : String → List String)
    (req : UploadRequest) (ts isoNow : String) (st : ServerState)
    (hfile : req.hasFile = true) (hname : req.filename ≠ "")
    (hnodup : (st.manifest.any fun r => r.hash == compute_file_hash req.content) = false)
    (hempty : extract_text_from_pdf req.pdf = "") :
    upload_file sanitize chunkDocs req ts isoNow st =
      (UploadResult.extractionFailed,
       { st with tempFiles :=
           (fsRemove (fsSave st.tempFiles ("data/" ++ sanitize req.filename))
             ("data/" ++ sanitize req.filename)) }) := by
  simp [upload_file, hfile, hname, hnodup, hempty]

theorem upload_file_success_eq (sanitize : String → String) (chunkDocs : String → List String)
    (req : UploadRequest) (ts isoNow : String) (st : ServerState)
    (hfile : req.hasFile = true) (hname : req.filename ≠ "")
    (hnodup : (st.manifest.any fun r => r.hash == compute_file_hash req.content) = false)
    (htext : extract_text_from_pdf req.pdf ≠ "") :
    upload_file sanitize chunkDocs req ts isoNow st =
      (UploadResult.success (uploadRec sanitize req ts isoNow st),
       { tempFiles :=
           (fsRemove (fsSave st.tempFiles ("data/" ++ sanitize req.filename))
             ("data/" ++ sanitize req.filename)),
         processedFiles := fsSave st.processedFiles (uploadRec sanitize req ts isoNow st).path,
         manifest := st.manifest ++ [uploadRec sanitize req ts isoNow st],
         vectorStore := st.vectorStore ++ chunkDocs (extract_text_from_pdf req.pdf) }) := by
  simp only [upload_file, hfile, hname, hnodup, htext, uploadRec, uploadDestName]
  simp [hname, htext]

/-- **C1.** A duplicate upload (content hash already present in some
manifest record, whatever filename the request carries) deletes the
temporary file, answers with the bare "already processed" message (the
`alreadyProcessed` result carries no `file` field), and leaves the
manifest, the vector store and the processed folder untouched. -/
theorem upload_duplicate_is_noop (sanitize : String → String)
    (chunkDocs : String → List String) (req : UploadRequest) (ts isoNow : String)
    (st : ServerState)
    (hfile : req.hasFile = true) (hname : req.filename ≠ "")
    (hdup : ∃ r ∈ st.manifest, r.hash = compute_file_hash req.content) :
    (upload_file sanitize chunkDocs req ts isoNow st).1 = UploadResult.alreadyProcessed ∧
    (upload_file sanitize chunkDocs req ts isoNow st).2.manifest = st.manifest ∧
    (upload_file sanitize chunkDocs req ts isoNow st).2.vectorStore = st.vectorStore ∧
    (upload_file sanitize chunkDocs req ts isoNow st).2.processedFiles = st.processedFiles ∧
    "data/" ++ sanitize req.filename ∉
      (upload_file sanitize chunkDocs req ts isoNow st).2.tempFiles := by
  obtain ⟨r, hr, hh⟩ := hdup
  have hany : (st.manifest.any fun x => x.hash == compute_file_hash req.content) = true := by
    rw [List.any_eq_true]
    exact ⟨r, hr, by simp [hh]⟩
  rw [upload_file_dup_eq sanitize chunkDocs req ts isoNow st hfile hname hany]
  exact ⟨rfl, rfl, rfl, rfl, not_mem_fsRemove _ _⟩

/-- Witness for C1: a second upload of the same one-byte content under a
different filename is a no-op. -/
theorem upload_duplicate_is_noop_witness :
    (upload_file id (fun t => [t]) ⟨true, "b.pdf", [0], some [PageRead.ok (some ("hi"))]⟩
      "20240101000000" "2024-01-01T00:00:00Z"
      ⟨[], ["processed_data/a.pdf"],
       [⟨"a.pdf", compute_file_hash [0], "2024-01-01T00:00:00Z", "processed_data/a.pdf"⟩],
       ["hi"]⟩).1 = UploadResult.alreadyProcessed ∧
    (upload_file id (fun t => [t]) ⟨true, "b.pdf", [0], some [PageRead.ok (some ("hi"))]⟩
      "20240101000000" "2024-01-01T00:00:00Z"
      ⟨[], ["processed_data/a.pdf"],
       [⟨"a.pdf", compute_file_hash [0], "2024-01-01T00:00:00Z", "processed_data/a.pdf"⟩],
       ["hi"]⟩).2.manifest =
      [⟨"a.pdf", compute_file_hash [0], "2024-01-01T00:00:00Z", "processed_data/a.pdf"⟩] ∧
    (upload_file id (fun t => [t]) ⟨true, "b.pdf", [0], some [PageRead.ok (some ("hi"))]⟩
      "20240101000000" "2024-01-01T00:00:00Z"
      ⟨[], ["processed_data/a.pdf"],
       [⟨"a.pdf", compute_file_hash [0], "2024-01-01T00:00:00Z", "processed_data/a.pdf"⟩],
       ["hi"]⟩).2.vectorStore = ["hi"] ∧
    (upload_file id (fun t => [t]) ⟨true, "b.pdf", [0], some [PageRead.ok (some ("hi"))]⟩
      "20240101000000" "2024-01-01T00:00:00Z"
      ⟨[], ["processed_data/a.pdf"],
       [⟨"a.pdf", compute_file_hash [0], "2024-01-01T00:00:00Z", "processed_data/a.pdf"⟩],
       ["hi"]⟩).2.processedFiles = ["processed_data/a.pdf"] ∧
    "data/" ++ id ("b.pdf") ∉
      (upload_file id (fun t => [t]) ⟨true, "b.pdf", [0], some [PageRead.ok (some ("hi"))]⟩
        "20240101000000" "2024-01-01T00:00:00Z"
        ⟨[], ["processed_data/a.pdf"],
         [⟨"a.pdf", compute_file_hash [0], "2024-01-01T00:00:00Z", "processed_data/a.pdf"⟩],
         ["hi"]⟩).2.tempFiles :=
  upload_duplicate_is_noop id (fun t => [t])
    ⟨true, "b.pdf", [0], some [PageRead.ok (some ("hi"))]⟩
    "20240101000000" "2024-01-01T00:00:00Z"
    ⟨[], ["processed_data/a.pdf"],
     [⟨"a.pdf", compute_file_hash [0], "2024-01-01T00:00:00Z", "processed_data/a.pdf"⟩],
     ["hi"]⟩
    rfl (by decide) ⟨_, List.mem_singleton.mpr rfl, rfl⟩

/-- **C2.** Hash uniqueness of the manifest is preserved by every run of
the upload handler: the linear scan returns early on a hash match, so a
record is only appended when its hash differs from every existing one. -/
theorem upload_preserves_hash_unique (sanitize : String → String)
    (chunkDocs : String → List String) (req : UploadRequest) (ts isoNow : String)
    (st : ServerState) (hu : hashUnique st.manifest) :
    hashUnique (upload_file sanitize chunkDocs req ts isoNow st).2.manifest := by
  cases hfb : req.hasFile with
  | false => simpa [upload_file, hfb] using hu
  | true =>
    by_cases hname : req.filename = ""
    · simpa [upload_file, hfb, hname] using hu
    · by_cases hany : (st.manifest.any fun x => x.hash == compute_file_hash req.content) = true
      · rw [upload_file_dup_eq sanitize chunkDocs req ts isoNow st hfb hname hany]
        exact hu
      · have hany' : (st.manifest.any fun x => x.hash == compute_file_hash req.content) = false :=
          Bool.eq_false_iff.mpr hany
        by_cases htext : extract_text_from_pdf req.pdf = ""
        · rw [upload_file_emptyText_eq sanitize chunkDocs req ts isoNow st hfb hname hany' htext]
          exact hu
        · rw [upload_file_success_eq sanitize chunkDocs req ts isoNow st hfb hname hany' htext]
          rw [hashUnique, List.pairwise_append]
          refine ⟨hu, List.pairwise_singleton _ _, ?_⟩
          intro a ha b hb
          rw [List.mem_singleton] at hb
          subst hb
          have hne := (List.any_eq_false.mp hany') a ha
          simp only [uploadRec]
          intro e
          exact hne (by simp [e])

/-- Witness for C2 at the empty state. -/
theorem upload_preserves_hash_unique_witness :
    hashUnique (upload_file id (fun _ => []) ⟨false, "", [], none⟩ "" "" ⟨[], [], [], []⟩).2.manifest :=
  upload_preserves_hash_unique id (fun _ => []) ⟨false, "", [], none⟩ "" "" ⟨[], [], [], []⟩
    List.Pairwise.nil

/-- **C4.** A non-duplicate upload whose text extraction yields the empty
string is answered with the 500 extraction-failure error; the temporary
file is deleted, no record is appended, the vector store is untouched,
and the content's hash does not appear in a subsequent `/processed`
listing. -/
theorem upload_empty_extraction_rejected (sanitize : String → String)
    (chunkDocs : String → List String) (req : UploadRequest) (ts isoNow : String)
    (st : ServerState)
    (hfile : req.hasFile = true) (hname : req.filename ≠ "")
    (hnodup : ∀ r ∈ st.manifest, r.hash ≠ compute_file_hash req.content)
    (hempty : extract_text_from_pdf req.pdf = "") :
    (upload_file sanitize chunkDocs req ts isoNow st).1 = UploadResult.extractionFailed ∧
    (upload_file sanitize chunkDocs req ts isoNow st).2.manifest = st.manifest ∧
    (upload_file sanitize chunkDocs req ts isoNow st).2.vectorStore = st.vectorStore ∧
    "data/" ++ sanitize req.filename ∉
      (upload_file sanitize chunkDocs req ts isoNow st).2.tempFiles ∧
    ∀ r ∈ (list_processed (upload_file sanitize chunkDocs req ts isoNow st).2).1,
      r.hash ≠ compute_file_hash req.content := by
  have hany : (st.manifest.any fun x => x.hash == compute_file_hash req.content) = false := by
    rw [List.any_eq_false]
    intro x hx
    simpa using hnodup x hx
  rw [upload_file_emptyText_eq sanitize chunkDocs req ts isoNow st hfile hname hany hempty]
  refine ⟨rfl, rfl, rfl, not_mem_fsRemove _ _, ?_⟩
  intro r hr
  exact hnodup r ((List.mergeSort_perm st.manifest descByProcessedAt).mem_iff.mp hr)

/-- Witness for C4: a PDF with no pages extracts to the empty string. -/
theorem upload_empty_extraction_rejected_witness :
    (upload_file id (fun t => [t]) ⟨true, "a.pdf", [], some []⟩ "x" "y"
      ⟨[], [], [], []⟩).1 = UploadResult.extractionFailed ∧
    (upload_file id (fun t => [t]) ⟨true, "a.pdf", [], some []⟩ "x" "y"
      ⟨[], [], [], []⟩).2.manifest = [] ∧
    (upload_file id (fun t => [t]) ⟨true, "a.pdf", [], some []⟩ "x" "y"
      ⟨[], [], [], []⟩).2.vectorStore = [] ∧
    "data/" ++ id ("a.pdf") ∉
      (upload_file id (fun t => [t]) ⟨true, "a.pdf", [], some []⟩ "x" "y"
        ⟨[], [], [], []⟩).2.tempFiles ∧
    ∀ r ∈ (list_processed (upload_file id (fun t => [t]) ⟨true, "a.pdf", [], some []⟩ "x" "y"
        ⟨[], [], [], []⟩).2).1,
      r.hash ≠ compute_file_hash [] :=
  upload_empty_extraction_rejected id (fun t => [t]) ⟨true, "a.pdf", [], some []⟩ "x" "y"
    ⟨[], [], [], []⟩ rfl (by decide) (by intro r hr; cases hr) rfl

/-- **C8.** The manifest is append-only: a run of the upload handler
extends the manifest by exactly one record when and only when it reports
success, and otherwise leaves it identical; the `/processed` handler
never writes state at all.  (The `/chat` handler, `chat`, takes no state
and so cannot touch the manifest.) -/
theorem manifest_append_only (sanitize : String → String)
    (chunkDocs : String → List String) (req : UploadRequest) (ts isoNow : String)
    (st : ServerState) :
    (∃ tail,
      (upload_file sanitize chunkDocs req ts isoNow st).2.manifest = st.manifest ++ tail ∧
      ((tail = [] ∧
        ∀ r, (upload_file sanitize chunkDocs req ts isoNow st).1 ≠ UploadResult.success r) ∨
       (∃ r, tail = [r] ∧
        (upload_file sanitize chunkDocs req ts isoNow st).1 = UploadResult.success r))) ∧
    (list_processed st).2 = st := by
  refine ⟨?_, rfl⟩
  cases hfb : req.hasFile with
  | false => exact ⟨[], by simp [upload_file, hfb], Or.inl ⟨rfl, by simp [upload_file, hfb]⟩⟩
  | true =>
    by_cases hname : req.filename = ""
    · exact ⟨[], by simp [upload_file, hfb, hname],
        Or.inl ⟨rfl, by simp [upload_file, hfb, hname]⟩⟩
    · by_cases hany : (st.manifest.any fun x => x.hash == compute_file_hash req.content) = true
      · rw [upload_file_dup_eq sanitize chunkDocs req ts isoNow st hfb hname hany]
        exact ⟨[], by simp, Or.inl ⟨rfl, by simp⟩⟩
      · have hany' : (st.manifest.any fun x => x.hash == compute_file_hash req.content) = false :=
          Bool.eq_false_iff.mpr hany
        by_cases htext : extract_text_from_pdf req.pdf = ""
        · rw [upload_file_emptyText_eq sanitize chunkDocs req ts isoNow st hfb hname hany' htext]
          exact ⟨[], by simp, Or.inl ⟨rfl, by simp⟩⟩
        · rw [upload_file_success_eq sanitize chunkDocs req ts isoNow st hfb hname hany' htext]
          exact ⟨[uploadRec sanitize req ts isoNow st], rfl, Or.inr ⟨_, rfl, rfl⟩⟩

theorem pySplitextCore_length (l : List Char) :
    (pySplitextCore l).1.length + (pySplitextCore l).2.length = l.length := by
  unfold pySplitextCore
  cases h : l.reverse.findIdx? (· == '.') with
  | none => simp
  | some k =>
    dsimp only
    split
    · simp
    · simp only [List.length_take, List.length_drop]
      omega

theorem pySplitext_length (s : String) :
    (pySplitext s).1.length + (pySplitext s).2.length = s.length := by
  show (pySplitextCore s.data).1.length + (pySplitextCore s.data).2.length = s.data.length
  exact pySplitextCore_length s.data

/-- **C6.** Two successful ingestions of distinct contents whose sanitized
filenames collide: the first is stored under the plain name, the second
under the timestamp-suffixed name, the two stored paths differ, and both
stored files exist in the processed folder afterwards (neither overwrote
the other). -/
theorem collision_gets_distinct_path
    (sanitize : String → String) (chunkDocs : String → List String)
    (req₁ req₂ : UploadRequest) (ts₁ iso₁ ts₂ iso₂ : String) (st : ServerState)
    (hfile₁ : req₁.hasFile = true) (hname₁ : req₁.filename ≠ "")
    (hfile₂ : req₂.hasFile = true) (hname₂ : req₂.filename ≠ "")
    (hsame : sanitize req₂.filename = sanitize req₁.filename)
    (hfresh : "processed_data/" ++ sanitize req₁.filename ∉ st.processedFiles)
    (hnodup₁ : ∀ r ∈ st.manifest, r.hash ≠ compute_file_hash req₁.content)
    (hnodup₂ : ∀ r ∈ st.manifest, r.hash ≠ compute_file_hash req₂.content)
    (hdistinct : compute_file_hash req₁.content ≠ compute_file_hash req₂.content)
    (htext₁ : extract_text_from_pdf req₁.pdf ≠ "")
    (htext₂ : extract_text_from_pdf req₂.pdf ≠ "") :
    ∃ rec₁ rec₂,
      (upload_file sanitize chunkDocs req₁ ts₁ iso₁ st).1 = UploadResult.success rec₁ ∧
      (upload_file sanitize chunkDocs req₂ ts₂ iso₂
        (upload_file sanitize chunkDocs req₁ ts₁ iso₁ st).2).1 = UploadResult.success rec₂ ∧
      rec₂.filename = (pySplitext (sanitize req₂.filename)).1 ++ "_" ++ ts₂ ++
        (pySplitext (sanitize req₂.filename)).2 ∧
      rec₁.path ≠ rec₂.path ∧
      rec₁.path ∈ (upload_file sanitize chunkDocs req₂ ts₂ iso₂
        (upload_file sanitize chunkDocs req₁ ts₁ iso₁ st).2).2.processedFiles ∧
      rec₂.path ∈ (upload_file sanitize chunkDocs req₂ ts₂ iso₂
        (upload_file sanitize chunkDocs req₁ ts₁ iso₁ st).2).2.processedFiles := by
  have hany₁ : (st.manifest.any fun x => x.hash == compute_file_hash req₁.content) = false := by
    rw [List.any_eq_false]
    intro x hx
    simpa using hnodup₁ x hx
  have hdest₁ : uploadDestName sanitize req₁ ts₁ st = sanitize req₁.filename := by
    simp only [uploadDestName]
    rw [if_neg hfresh]
  have hpath₁ : (uploadRec sanitize req₁ ts₁ iso₁ st).path =
      "processed_data/" ++ sanitize req₁.filename := by
    simp only [uploadRec]
    rw [hdest₁]
  have h1 := upload_file_success_eq sanitize chunkDocs req₁ ts₁ iso₁ st hfile₁ hname₁ hany₁ htext₁
  have hpf' : (upload_file sanitize chunkDocs req₁ ts₁ iso₁ st).2.processedFiles =
      fsSave st.processedFiles (uploadRec sanitize req₁ ts₁ iso₁ st).path := by rw [h1]
  have hman' : (upload_file sanitize chunkDocs req₁ ts₁ iso₁ st).2.manifest =
      st.manifest ++ [uploadRec sanitize req₁ ts₁ iso₁ st] := by rw [h1]
  have hany₂ : ((upload_file sanitize chunkDocs req₁ ts₁ iso₁ st).2.manifest.any
      fun x => x.hash == compute_file_hash req₂.content) = false := by
    rw [hman', List.any_append]
    have ha : (st.manifest.any fun x => x.hash == compute_file_hash req₂.content) = false := by
      rw [List.any_eq_false]
      intro x hx
      simpa using hnodup₂ x hx
    have hb : ([uploadRec sanitize req₁ ts₁ iso₁ st].any
        fun x => x.hash == compute_file_hash req₂.content) = false := by
      simpa [uploadRec] using hdistinct
    rw [ha, hb]
    rfl
  have h2 := upload_file_success_eq sanitize chunkDocs req₂ ts₂ iso₂
    (upload_file sanitize chunkDocs req₁ ts₁ iso₁ st).2 hfile₂ hname₂ hany₂ htext₂
  have hmem2 : "processed_data/" ++ sanitize req₂.filename ∈
      (upload_file sanitize chunkDocs req₁ ts₁ iso₁ st).2.processedFiles := by
    rw [hpf', hsame, mem_fsSave]
    right
    rw [hpath₁]
  have hdest₂ : uploadDestName sanitize req₂ ts₂
      (upload_file sanitize chunkDocs req₁ ts₁ iso₁ st).2 =
      (pySplitext (sanitize req₂.filename)).1 ++ "_" ++ ts₂ ++
        (pySplitext (sanitize req₂.filename)).2 := by
    simp only [uploadDestName]
    rw [if_pos hmem2]
  have hpath₂ : (uploadRec sanitize req₂ ts₂ iso₂
      (upload_file sanitize chunkDocs req₁ ts₁ iso₁ st).2).path =
      "processed_data/" ++ ((pySplitext (sanitize req₂.filename)).1 ++ "_" ++ ts₂ ++
        (pySplitext (sanitize req₂.filename)).2) := by
    simp only [uploadRec]
    rw [hdest₂]
  have hpf₂ : (upload_file sanitize chunkDocs req₂ ts₂ iso₂
      (upload_file sanitize chunkDocs req₁ ts₁ iso₁ st).2).2.processedFiles =
      fsSave (upload_file sanitize chunkDocs req₁ ts₁ iso₁ st).2.processedFiles
        (uploadRec sanitize req₂ ts₂ iso₂
          (upload_file sanitize chunkDocs req₁ ts₁ iso₁ st).2).path := by rw [h2]
  refine ⟨uploadRec sanitize req₁ ts₁ iso₁ st,
    uploadRec sanitize req₂ ts₂ iso₂ (upload_file sanitize chunkDocs req₁ ts₁ iso₁ st).2,
    ?_, ?_, ?_, ?_, ?_, ?_⟩
  · rw [h1]
  · rw [h2]
  · simp only [uploadRec]
    rw [hdest₂]
  · rw [hpath₁, hpath₂, hsame]
    intro heq
    have hlen := congrArg String.length heq
    have hu : String.length ("_") = 1 := rfl
    simp only [String.length_append, hu] at hlen
    have hsp := pySplitext_length (sanitize req₁.filename)
    omega
  · rw [hpf₂, mem_fsSave]
    left
    rw [hpf', mem_fsSave]
    right
    rfl
  · rw [hpf₂, mem_fsSave]
    right
    rfl

/-- Witness for C6: two uploads both named `a.pdf` with different one-byte
contents, starting from the empty state. -/
theorem collision_gets_distinct_path_witness :
    ∃ rec₁ rec₂,
      (upload_file id (fun t => [t]) ⟨true, "a.pdf", [], some [PageRead.ok (some ("x"))]⟩
        "20240101000000" "2024-01-01T00:00:00Z" ⟨[], [], [], []⟩).1 =
        UploadResult.success rec₁ ∧
      (upload_file id (fun t => [t]) ⟨true, "a.pdf", [0], some [PageRead.ok (some ("y"))]⟩
        "20240102000000" "2024-01-02T00:00:00Z"
        (upload_file id (fun t => [t]) ⟨true, "a.pdf", [], some [PageRead.ok (some ("x"))]⟩
          "20240101000000" "2024-01-01T00:00:00Z" ⟨[], [], [], []⟩).2).1 =
        UploadResult.success rec₂ ∧
      rec₂.filename = (pySplitext (id ("a.pdf"))).1 ++ "_" ++ "20240102000000" ++
        (pySplitext (id ("a.pdf"))).2 ∧
      rec₁.path ≠ rec₂.path ∧
      rec₁.path ∈ (upload_file id (fun t => [t]) ⟨true, "a.pdf", [0], some [PageRead.ok (some ("y"))]⟩
        "20240102000000" "2024-01-02T00:00:00Z"
        (upload_file id (fun t => [t]) ⟨true, "a.pdf", [], some [PageRead.ok (some ("x"))]⟩
          "20240101000000" "2024-01-01T00:00:00Z" ⟨[], [], [], []⟩).2).2.processedFiles ∧
      rec₂.path ∈ (upload_file id (fun t => [t]) ⟨true, "a.pdf", [0], some [PageRead.ok (some ("y"))]⟩
        "20240102000000" "2024-01-02T00:00:00Z"
        (upload_file id (fun t => [t]) ⟨true, "a.pdf", [], some [PageRead.ok (some ("x"))]⟩
          "20240101000000" "2024-01-01T00:00:00Z" ⟨[], [], [], []⟩).2).2.processedFiles :=
  collision_gets_distinct_path id (fun t => [t])
    ⟨true, "a.pdf", [], some [PageRead.ok (some ("x"))]⟩
    ⟨true, "a.pdf", [0], some [PageRead.ok (some ("y"))]⟩
    "20240101000000" "2024-01-01T00:00:00Z" "20240102000000" "2024-01-02T00:00:00Z"
    ⟨[], [], [], []⟩
    rfl (by decide) rfl (by decide) rfl (by simp)
    (by simp) (by simp) (by decide) (by decide) (by decide)
